import Mathlib

/-!
Verification development for the YouTube direct-link extractor script
(`ytdlp.js`).  The definitions below are a shallow embedding of the
script's pipeline: configuration harvesting (`extractYtcfg`), player-URL
resolution (`extractPlayerUrl`), cipher resolution (`processFormatUrl`),
catalog building (`extractFormats`), the size formatter
(`formatFileSize`), the HTTP transport redirect handling (`httpRequest`),
and the download engine (`downloadFile`).

JavaScript runtime facilities used by the script (`JSON.parse`,
`URLSearchParams`, `new URL`, regular-expression matching for the
script's fixed patterns) are embedded as executable Lean functions
mirroring their standard semantics on the ASCII inputs the pipeline
handles.  The external `ejs` decoder subprocess is an opaque collaborator
in the script; it is embedded as an abstract function argument
`Decoder`.
-/

namespace Ytdlp

/-- JavaScript values as they occur in the script: the results of
`JSON.parse` and the values stored in the harvested `ytcfg` object.
Objects keep insertion order, as JS objects do for string keys. -/
inductive JValue where
  | null : JValue
  | bool (b : Bool) : JValue
  | num (q : ℚ) : JValue
  | str (s : String) : JValue
  | arr (xs : List JValue) : JValue
  | obj (kvs : List (String × JValue)) : JValue

/-- JS truthiness of a `JValue` (`null`, `false`, `0`, `""` are falsy;
arrays and objects are truthy). -/
def jsTruthy : JValue → Bool
  | JValue.null => false
  | JValue.bool b => b
  | JValue.num q => decide (q ≠ 0)
  | JValue.str s => decide (s ≠ "")
  | JValue.arr _ => true
  | JValue.obj _ => true

/-- JS truthiness of an optional string (JS `undefined` and `""` are
falsy). -/
def jsTruthyS : Option String → Bool
  | none => false
  | some s => decide (s ≠ "")

/-- Assignment `target[k] = v` on a JS object: an existing key keeps its
position and gets the new value, a new key is appended. -/
def objSet : List (String × JValue) → String → JValue → List (String × JValue)
  | [], k, v => [(k, v)]
  | (k', v') :: rest, k, v =>
      if k' = k then (k, v) :: rest else (k', v') :: objSet rest k v

/-- Property read `o[k]` on a JS object (keys are unique in objects built
with `objSet`). -/
def objLookup : List (String × JValue) → String → Option JValue
  | [], _ => none
  | (k', v') :: rest, k => if k' = k then some v' else objLookup rest k

/-- `Object.assign(target, source)`: copy the source's properties into the
target in order, overwriting existing keys. -/
def objAssign (target source : List (String × JValue)) : List (String × JValue) :=
  source.foldl (fun t kv => objSet t kv.1 kv.2) target

/-- JS `s.startsWith(pre)` (structurally recursive, so concrete
instances evaluate definitionally). -/
def strStartsWith (s pre : String) : Bool :=
  pre.toList.isPrefixOf s.toList

/-- Strip an expected literal character sequence, returning the rest. -/
def stripLit : List Char → List Char → Option (List Char)
  | [], s => some s
  | _ :: _, [] => none
  | l :: ls, c :: cs => if c = l then stripLit ls cs else none

/-- JSON whitespace accepted by `JSON.parse` between tokens. -/
def isJsonWs (c : Char) : Bool :=
  c = ' ' || c = '\t' || c = '\n' || c = '\r'

/-- Skip JSON whitespace. -/
def skipJsonWs : List Char → List Char
  | [] => []
  | c :: rest => if isJsonWs c then skipJsonWs rest else c :: rest

/-- Hexadecimal digit value. -/
def hexVal (c : Char) : Option Nat :=
  if '0' ≤ c ∧ c ≤ '9' then some (c.toNat - '0'.toNat)
  else if 'a' ≤ c ∧ c ≤ 'f' then some (c.toNat - 'a'.toNat + 10)
  else if 'A' ≤ c ∧ c ≤ 'F' then some (c.toNat - 'A'.toNat + 10)
  else none

/-- Decimal digit test. -/
def isDigitCh (c : Char) : Bool := '0' ≤ c && c ≤ '9'

/-- Value of a run of decimal digits. -/
def digitsVal (ds : List Char) : Nat :=
  ds.foldl (fun acc c => acc * 10 + (c.toNat - '0'.toNat)) 0

/-- Body of a JSON string literal after the opening quote: handles the
JSON escape sequences and rejects raw control characters, as
`JSON.parse` does.  (`\uXXXX` is mapped to the scalar value `XXXX`;
surrogate pairs do not occur in the pipeline's inputs.) -/
def jstrGo : List Char → List Char → Option (String × List Char)
  | [], _ => none
  | '"' :: rest, acc => some (String.mk acc.reverse, rest)
  | '\\' :: e :: rest, acc =>
      match e with
      | '"' => jstrGo rest ('"' :: acc)
      | '\\' => jstrGo rest ('\\' :: acc)
      | '/' => jstrGo rest ('/' :: acc)
      | 'b' => jstrGo rest ('\x08' :: acc)
      | 'f' => jstrGo rest ('\x0c' :: acc)
      | 'n' => jstrGo rest ('\n' :: acc)
      | 'r' => jstrGo rest ('\r' :: acc)
      | 't' => jstrGo rest ('\t' :: acc)
      | 'u' =>
          match rest with
          | h1 :: h2 :: h3 :: h4 :: rest' =>
              match hexVal h1, hexVal h2, hexVal h3, hexVal h4 with
              | some a, some b, some c, some d =>
                  jstrGo rest' (Char.ofNat (((a * 16 + b) * 16 + c) * 16 + d) :: acc)
              | _, _, _, _ => none
          | _ => none
      | _ => none
  | '\\' :: [], _ => none
  | c :: rest, acc =>
      if c.toNat < 0x20 then none else jstrGo rest (c :: acc)

/-- JSON number literal: optional minus, integer part without leading
zeros, optional fraction, optional exponent; yields the exact rational
value. -/
def jparseNum (s : List Char) : Option (ℚ × List Char) :=
  let (neg, s1) := match s with
    | '-' :: r => (true, r)
    | _ => (false, s)
  let intPart : Option (List Char × List Char) := match s1 with
    | '0' :: r =>
        match r with
        | c :: _ => if isDigitCh c then none else some (['0'], r)
        | [] => some (['0'], [])
    | c :: _ =>
        if isDigitCh c then
          let run := s1.takeWhile isDigitCh
          some (run, s1.dropWhile isDigitCh)
        else none
    | [] => none
  match intPart with
  | none => none
  | some (ids, s2) =>
    let fracPart : Option (List Char × List Char) := match s2 with
      | '.' :: r =>
          let run := r.takeWhile isDigitCh
          if run.isEmpty then none else some (run, r.dropWhile isDigitCh)
      | _ => some ([], s2)
    match fracPart with
    | none => none
    | some (fds, s3) =>
      let expPart : Option (Int × List Char) := match s3 with
        | 'e' :: r | 'E' :: r =>
            let (esign, r1) := match r with
              | '+' :: r' => ((1 : Int), r')
              | '-' :: r' => ((-1 : Int), r')
              | _ => ((1 : Int), r)
            let run := r1.takeWhile isDigitCh
            if run.isEmpty then none
            else some (esign * (digitsVal run : Int), r1.dropWhile isDigitCh)
        | _ => some ((0 : Int), s3)
      match expPart with
      | none => none
      | some (ex, s4) =>
        let mant : ℚ := (digitsVal (ids ++ fds) : ℚ) / ((10 : ℚ) ^ fds.length)
        let scaled : ℚ :=
          if 0 ≤ ex then mant * (10 : ℚ) ^ ex.toNat else mant / (10 : ℚ) ^ (-ex).toNat
        some (if neg then -scaled else scaled, s4)

mutual

/-- Fuel-indexed JSON value parser (the recursive core of `JSON.parse`). -/
def jparseVal : Nat → List Char → Option (JValue × List Char)
  | 0, _ => none
  | fuel + 1, s =>
    match skipJsonWs s with
    | 'n' :: 'u' :: 'l' :: 'l' :: rest => some (JValue.null, rest)
    | 't' :: 'r' :: 'u' :: 'e' :: rest => some (JValue.bool true, rest)
    | 'f' :: 'a' :: 'l' :: 's' :: 'e' :: rest => some (JValue.bool false, rest)
    | '"' :: rest =>
        match jstrGo rest [] with
        | some (str, rest') => some (JValue.str str, rest')
        | none => none
    | '[' :: rest =>
        (jparseArrItems fuel rest true).map (fun p => (JValue.arr p.1, p.2))
    | '{' :: rest =>
        (jparseObjItems fuel rest true).map
          (fun p => (JValue.obj (p.1.foldl (fun o kv => objSet o kv.1 kv.2) []), p.2))
    | s' => (jparseNum s').map (fun p => (JValue.num p.1, p.2))

/-- Items of a JSON array after `[` (or after a `,`); `first` records
whether no item has been consumed yet. -/
def jparseArrItems : Nat → List Char → Bool → Option (List JValue × List Char)
  | 0, _, _ => none
  | fuel + 1, s, first =>
    match skipJsonWs s with
    | ']' :: rest => if first then some ([], rest) else none
    | s' =>
      match jparseVal fuel s' with
      | none => none
      | some (v, rest) =>
        match skipJsonWs rest with
        | ',' :: rest' =>
            match jparseArrItems fuel rest' false with
            | some (vs, rest'') => some (v :: vs, rest'')
            | none => none
        | ']' :: rest' => some ([v], rest')
        | _ => none

/-- Members of a JSON object after an opening brace (or after a `,`), in
source order (duplicates are collapsed later with JS assignment
semantics). -/
def jparseObjItems : Nat → List Char → Bool → Option (List (String × JValue) × List Char)
  | 0, _, _ => none
  | fuel + 1, s, first =>
    match skipJsonWs s with
    | '}' :: rest => if first then some ([], rest) else none
    | '"' :: rest =>
      match jstrGo rest [] with
      | none => none
      | some (key, rest1) =>
        match skipJsonWs rest1 with
        | ':' :: rest2 =>
          match jparseVal fuel rest2 with
          | none => none
          | some (v, rest3) =>
            match skipJsonWs rest3 with
            | ',' :: rest4 =>
                match jparseObjItems fuel rest4 false with
                | some (kvs, rest5) => some ((key, v) :: kvs, rest5)
                | none => none
            | '}' :: rest4 => some ([(key, v)], rest4)
            | _ => none
        | _ => none
    | _ => none

end

/-- `JSON.parse`: parse a complete JSON document, allowing trailing
whitespace only. -/
def jsonParse (s : String) : Option JValue :=
  match jparseVal (2 * s.length + 8) s.toList with
  | some (v, rest) => if (skipJsonWs rest).isEmpty then some v else none
  | none => none

/-! ### Regular-expression matchers for the script's fixed patterns

The script uses a handful of fixed regular expressions.  Each one is
embedded as a direct scanning function with JS regex semantics for that
pattern (leftmost match, greedy character classes, lazy `*?`). -/

/-- Whitespace class of JS regex `\s` (ASCII part; the pipeline's inputs
contain no exotic Unicode spaces). -/
def isJsWs (c : Char) : Bool :=
  c = ' ' || c = '\t' || c = '\n' || c = '\r' || c = '\x0b' || c = '\x0c'

/-- Skip JS regex whitespace (`\s*`). -/
def skipJsWs : List Char → List Char
  | [] => []
  | c :: rest => if isJsWs c then skipJsWs rest else c :: rest

/-- Word-character class of JS regex `\w`. -/
def isWordCh (c : Char) : Bool :=
  ('a' ≤ c && c ≤ 'z') || ('A' ≤ c && c ≤ 'Z') || isDigitCh c || c = '_'

/-- Character class `[a-zA-Z0-9_-]` used in the player-id patterns. -/
def isPlayerIdCh (c : Char) : Bool := isWordCh c || c = '-'

/-- Leftmost-match driver: try a position matcher at every suffix, left
to right, returning the first success (the semantics of `String.match`
with a non-anchored pattern). -/
def scanFirst {α : Type} (f : List Char → Option α) : List Char → Option α
  | [] => f []
  | c :: rest =>
      match f (c :: rest) with
      | some r => some r
      | none => scanFirst f rest

/-- Position matcher for `"<key>"\s*:\s*"([^"]+)"`: returns the capture
group (the nonempty run of non-quote characters). -/
def matchKeyQuotedAt (key : String) (s : List Char) : Option String :=
  match stripLit ('"' :: key.toList ++ ['"']) s with
  | none => none
  | some r1 =>
    match skipJsWs r1 with
    | ':' :: r2 =>
      match skipJsWs r2 with
      | '"' :: r3 =>
          let run := r3.takeWhile (fun c => c ≠ '"')
          if run.isEmpty then none
          else
            match r3.dropWhile (fun c => c ≠ '"') with
            | '"' :: _ => some (String.mk run)
            | _ => none
      | _ => none
    | _ => none

/-- Leftmost match of `"<key>"\s*:\s*"([^"]+)"` against a page, giving
the capture group: the shape of the script's per-key fallback patterns
(`extractYtcfg`) and of the `jsUrl` / `PLAYER_JS_URL` page patterns
(`extractPlayerUrl`). -/
def matchKeyQuoted (html : String) (key : String) : Option String :=
  scanFirst (matchKeyQuotedAt key) html.toList

/-- Tail of the pattern `[^"]+?base\.js` after its first (mandatory)
character: lazily scan non-quote characters until the literal `base.js`
starts. -/
def lazyBaseJsGo : List Char → Bool
  | [] => false
  | c :: rest =>
      if ("base.js".toList).isPrefixOf (c :: rest) then true
      else if c = '"' then false
      else lazyBaseJsGo rest

/-- Position matcher for `\/s\/player\/([a-zA-Z0-9_-]+)\/[^"]+?base\.js`:
returns the capture group (the player id). -/
def matchPlayerBaseJsAt (s : List Char) : Option String :=
  match stripLit "/s/player/".toList s with
  | none => none
  | some r1 =>
    let run := r1.takeWhile isPlayerIdCh
    if run.isEmpty then none
    else
      match r1.dropWhile isPlayerIdCh with
      | '/' :: r2 =>
          match r2 with
          | [] => none
          | c :: rest =>
              if c = '"' then none
              else if lazyBaseJsGo rest then some (String.mk run) else none
      | _ => none

/-- Position matcher for `\/s\/player\/([a-zA-Z0-9_-]+)\/`: returns the
capture group (the player id). -/
def matchPlayerIdAt (s : List Char) : Option String :=
  match stripLit "/s/player/".toList s with
  | none => none
  | some r1 =>
    let run := r1.takeWhile isPlayerIdCh
    if run.isEmpty then none
    else
      match r1.dropWhile isPlayerIdCh with
      | '/' :: _ => some (String.mk run)
      | _ => none

/-! ### Step 2: `extractYtcfg` -/

/-- Trailing part `\s*\)\s*;` of the `ytcfg.set` pattern, after the
closing brace of the capture group. -/
def setCallClose (s : List Char) : Option (List Char) :=
  match skipJsWs s with
  | ')' :: s2 =>
      match skipJsWs s2 with
      | ';' :: s3 => some s3
      | _ => none
  | _ => none

/-- Lazy body of the capture group `(\{[\s\S]*?\})`: after the opening
brace, consume the shortest run of characters whose terminating `}` is
followed by `\s*\)\s*;`.  Returns the capture (braces included) and the
rest of the input after the whole match. -/
def setBodyGo : List Char → List Char → Option (String × List Char)
  | [], _ => none
  | c :: rest, acc =>
      if c = '}' then
        match setCallClose rest with
        | some rest' => some (String.mk ('{' :: acc.reverse ++ ['}']), rest')
        | none => setBodyGo rest (c :: acc)
      else setBodyGo rest (c :: acc)

/-- Position matcher for `ytcfg\.set\s*\(\s*(\{[\s\S]*?\})\s*\)\s*;`:
returns the capture group and the rest of the input after the match. -/
def matchSetAt (s : List Char) : Option (String × List Char) :=
  match stripLit "ytcfg.set".toList s with
  | none => none
  | some r1 =>
    match skipJsWs r1 with
    | '(' :: r2 =>
      match skipJsWs r2 with
      | '{' :: r3 => setBodyGo r3 []
      | _ => none
    | _ => none

/-- Global-exec loop of the `ytcfg.set` pattern: all captures of the
successive non-overlapping leftmost matches. -/
def findSetOccsGo : Nat → List Char → List String
  | 0, _ => []
  | fuel + 1, s =>
    match matchSetAt s with
    | some (cap, rest) => cap :: findSetOccsGo fuel rest
    | none =>
      match s with
      | [] => []
      | _ :: rest => findSetOccsGo fuel rest

/-- All captures of the `ytcfg.set(...)` pattern in a page, in document
order. -/
def findSetOccurrences (html : String) : List String :=
  findSetOccsGo (html.length + 1) html.toList

/-- First recovery transform of the fix-up: `.replace(/'/g, '"')`. -/
def fixQuotes (s : String) : String :=
  String.mk (s.toList.map (fun c => if c = '\'' then '"' else c))

/-- Second recovery transform: `.replace(/(\w+):/g, m)` where the
replacement quotes the captured word — each maximal `\w+` run directly
followed by `:` is wrapped in double quotes. -/
def quoteKeysGo : Nat → List Char → List Char
  | 0, _ => []
  | _ + 1, [] => []
  | fuel + 1, c :: rest =>
      if isWordCh c then
        let run := (c :: rest).takeWhile isWordCh
        let rest' := (c :: rest).dropWhile isWordCh
        match rest' with
        | ':' :: r2 => '"' :: run ++ '"' :: ':' :: quoteKeysGo fuel r2
        | _ => run ++ quoteKeysGo fuel rest'
      else c :: quoteKeysGo fuel rest

/-- Second recovery transform on strings. -/
def quoteKeys (s : String) : String :=
  String.mk (quoteKeysGo (s.length + 1) s.toList)

/-- The fix-up applied when strict `JSON.parse` fails on a captured
occurrence. -/
def fixupOccurrence (s : String) : String :=
  quoteKeys (fixQuotes s)

/-- Phase (a) of `extractYtcfg`: for each `ytcfg.set` capture, strict
`JSON.parse`, recovering with the fix-up on failure; successes merge
into the configuration via `Object.assign` (last write wins). -/
def ytcfgPhaseA (html : String) : List (String × JValue) :=
  (findSetOccurrences html).foldl
    (fun cfg cap =>
      match jsonParse cap with
      | some (JValue.obj kvs) => objAssign cfg kvs
      | some _ => cfg
      | none =>
        match jsonParse (fixupOccurrence cap) with
        | some (JValue.obj kvs) => objAssign cfg kvs
        | _ => cfg)
    []

/-- Modelled from the spec: the configuration that strict structured
parsing (`JSON.parse`) of the recognized `ytcfg.set` occurrences alone
would yield, with no recovery transform and no fallback patterns.  Used
to compare the harvested configuration with the spec's
superset-of-strict-parsing property. -/
def ytcfgStrictOnly (html : String) : List (String × JValue) :=
  (findSetOccurrences html).foldl
    (fun cfg cap =>
      match jsonParse cap with
      | some (JValue.obj kvs) => objAssign cfg kvs
      | _ => cfg)
    []

/-- The keys of the per-key fallback pattern table, in the table's
order. -/
def fallbackKeys : List String :=
  ["INNERTUBE_API_KEY", "INNERTUBE_CLIENT_NAME", "INNERTUBE_CLIENT_VERSION",
   "PLAYER_JS_URL", "VISITOR_DATA"]

/-- One step of phase (b) of `extractYtcfg`: when the key's current
value is falsy (`if (!ytcfg[key])`), apply the pattern
`"<key>"\s*:\s*"([^"]+)"` against the page and store the capture. -/
def fallbackStep (html : String) (cfg : List (String × JValue)) (key : String) :
    List (String × JValue) :=
  if jsTruthy ((objLookup cfg key).getD JValue.null) then cfg
  else
    match matchKeyQuoted html key with
    | some v => objSet cfg key (JValue.str v)
    | none => cfg

/-- Phase (b) of `extractYtcfg`: the per-key fallback loop over the
pattern table. -/
def applyFallbacks (html : String) (cfg : List (String × JValue)) :
    List (String × JValue) :=
  fallbackKeys.foldl (fallbackStep html) cfg

/-- Step 2 of the pipeline (`extractYtcfg`): harvest the configuration
from the page markup. -/
def extractYtcfg (html : String) : List (String × JValue) :=
  applyFallbacks html (ytcfgPhaseA html)

/-! ### Step 3: `extractPlayerUrl` -/

/-- Decimal rendering of a nonnegative rational whose denominator
divides `10 ^ k`, trailing zeros stripped. -/
def ratDecimalGo (q : ℚ) (k : Nat) : String :=
  if q.den = 1 then toString q.num
  else
    match k with
    | 0 => toString q.num ++ "/" ++ toString q.den
    | k' + 1 =>
        if (q.den : Int) ∣ 10 ^ (k' + 1) then
          let digits := (q.num * (10 ^ (k' + 1) / (q.den : ℤ))).natAbs
          let a := digits / 10 ^ (k' + 1)
          let b := digits % 10 ^ (k' + 1)
          Nat.repr a ++ "." ++
            String.mk (List.replicate ((k' + 1) - (Nat.repr b).length) '0') ++
            (Nat.repr b).dropRightWhile (fun c => c = '0')
        else ratDecimalGo q k'

/-- String form a JS number takes when concatenated (exact for the
integral and decimal-fraction values `JSON.parse` produces; reachable
only if the harvested `PLAYER_JS_URL` is not a string). -/
def ratToJsString (q : ℚ) : String :=
  if q < 0 then "-" ++ ratDecimalGo (-q) 40 else ratDecimalGo q 40

/-- JS string coercion of a `JValue`, as produced by string
concatenation (`'https://...' + value`). -/
def jsToString : JValue → String
  | JValue.null => "null"
  | JValue.bool true => "true"
  | JValue.bool false => "false"
  | JValue.num q => ratToJsString q
  | JValue.str s => s
  | JValue.arr _ => ""
  | JValue.obj _ => "[object Object]"

/-- First source of the player URL: the explicit configuration field
(`if (ytcfg.PLAYER_JS_URL) return 'https://www.youtube.com' + ...`). -/
def urlFromCfg (cfg : List (String × JValue)) : Option String :=
  match objLookup cfg "PLAYER_JS_URL" with
  | some v => if jsTruthy v then some ("https://www.youtube.com" ++ jsToString v) else none
  | none => none

/-- Normalization applied to a page-pattern match:
`.replace(/\\\//g, '/')`. -/
def replaceEscSlash : List Char → List Char
  | [] => []
  | '\\' :: '/' :: rest => '/' :: replaceEscSlash rest
  | c :: rest => c :: replaceEscSlash rest

/-- Normalization applied to a page-pattern match:
`.replace(/\\u0026/g, '&')`. -/
def replaceU0026 : Nat → List Char → List Char
  | 0, _ => []
  | _ + 1, [] => []
  | fuel + 1, s =>
      match stripLit "\\u0026".toList s with
      | some rest => '&' :: replaceU0026 fuel rest
      | none =>
        match s with
        | [] => []
        | c :: rest => c :: replaceU0026 fuel rest

/-- Backslash-escape and unicode-escape normalization plus root-relative
path expansion, applied to the value taken from a page pattern. -/
def normalizePlayerUrl (m : String) : String :=
  let u := String.mk (replaceU0026 (m.length + 1) (replaceEscSlash m.toList))
  if strStartsWith u "/" then "https://www.youtube.com" ++ u else u

/-- The second source: the ordered page-pattern list of
`extractPlayerUrl` (`jsUrl`, `PLAYER_JS_URL`, `/s/player/<id>/...base.js`),
first match wins.  In all three patterns `match[1]` is the (always
nonempty) first capture group, so `match[1] || match[0]` is the
capture. -/
def pagePatternMatch (html : String) : Option String :=
  match matchKeyQuoted html "jsUrl" with
  | some m => some m
  | none =>
    match matchKeyQuoted html "PLAYER_JS_URL" with
    | some m => some m
    | none => scanFirst matchPlayerBaseJsAt html.toList

/-- The second source with its normalization. -/
def urlFromPagePatterns (html : String) : Option String :=
  (pagePatternMatch html).map normalizePlayerUrl

/-- The third source: a URL constructed from the bare player-identifier
pattern `/s/player/<id>/`. -/
def urlFromPlayerId (html : String) : Option String :=
  (scanFirst matchPlayerIdAt html.toList).map
    (fun id => "https://www.youtube.com/s/player/" ++ id ++ "/player_ias.vflset/en_US/base.js")

/-- Step 3 of the pipeline (`extractPlayerUrl`): resolve the
player-script URL, trying the configuration field, then the page
patterns, then the constructed fallback; throwing when all fail. -/
def extractPlayerUrl (html : String) (ytcfg : List (String × JValue)) :
    Except String String :=
  match urlFromCfg ytcfg with
  | some u => Except.ok u
  | none =>
    match urlFromPagePatterns html with
    | some u => Except.ok u
    | none =>
      match urlFromPlayerId html with
      | some u => Except.ok u
      | none => Except.error "无法提取 Player URL"

/-! ### URL and query-string model

`URLSearchParams` and `new URL` from the Node standard library, for the
ASCII http(s) URLs the pipeline handles (percent escapes are decoded
and encoded bytewise, which agrees with the real UTF-8 treatment on
ASCII data). -/

/-- Percent/plus decoding of `application/x-www-form-urlencoded` data,
as `URLSearchParams` applies to keys and values (a `%` not followed by
two hex digits is kept literally). -/
def formUrlDecode : List Char → List Char
  | [] => []
  | '+' :: rest => ' ' :: formUrlDecode rest
  | '%' :: h1 :: h2 :: rest =>
      match hexVal h1, hexVal h2 with
      | some a, some b => Char.ofNat (16 * a + b) :: formUrlDecode rest
      | _, _ => '%' :: formUrlDecode (h1 :: h2 :: rest)
  | c :: rest => c :: formUrlDecode rest

/-- Split a query string on `&`. -/
def splitOnAmp (cs : List Char) : List (List Char) :=
  cs.foldr
    (fun c acc =>
      if c = '&' then [] :: acc
      else
        match acc with
        | [] => [[c]]
        | g :: gs => (c :: g) :: gs)
    [[]]

/-- Split a query segment at its first `=` (a segment without `=` has an
empty value, as in `URLSearchParams`). -/
def splitAtEq : List Char → List Char × List Char
  | [] => ([], [])
  | '=' :: rest => ([], rest)
  | c :: rest =>
      let (k, v) := splitAtEq rest
      (c :: k, v)

/-- `new URLSearchParams(s)`: strip one leading `?`, split on `&`,
ignore empty segments, split each at the first `=`, percent-decode keys
and values. -/
def parseQueryString (s : String) : List (String × String) :=
  let cs := match s.toList with
    | '?' :: r => r
    | cs => cs
  (splitOnAmp cs).filterMap
    (fun seg =>
      if seg.isEmpty then none
      else
        let (k, v) := splitAtEq seg
        some (String.mk (formUrlDecode k), String.mk (formUrlDecode v)))

/-- `params.get(k)`: value of the first pair with the given key. -/
def getParam : List (String × String) → String → Option String
  | [], _ => none
  | (k', v) :: rest, k => if k' = k then some v else getParam rest k

/-- Inner loop of `params.set(k, v)` once the key is known to occur:
replace the first occurrence and drop the later ones. -/
def setParamGo (k v : String) : List (String × String) → List (String × String)
  | [] => []
  | (k', v') :: rest =>
      if k' = k then (k, v) :: rest.filter (fun kv => kv.1 ≠ k)
      else (k', v') :: setParamGo k v rest

/-- `params.set(k, v)`: replace the first occurrence of the key (dropping
duplicates), or append. -/
def setParam (l : List (String × String)) (k v : String) : List (String × String) :=
  if l.any (fun kv => kv.1 = k) then setParamGo k v l else l ++ [(k, v)]

/-- Characters serialized verbatim by `URLSearchParams.toString`. -/
def isFormSafe (c : Char) : Bool :=
  ('a' ≤ c && c ≤ 'z') || ('A' ≤ c && c ≤ 'Z') || isDigitCh c ||
    c = '*' || c = '-' || c = '.' || c = '_'

/-- Two-digit uppercase hexadecimal form of a byte. -/
def hex2 (n : Nat) : String :=
  let d : Nat → Char := fun k =>
    if k < 10 then Char.ofNat ('0'.toNat + k) else Char.ofNat ('A'.toNat + k - 10)
  String.mk [d (n / 16 % 16), d (n % 16)]

/-- Percent/plus encoding used by `URLSearchParams.toString` (bytewise;
agrees with UTF-8 encoding on ASCII data). -/
def formUrlEncode (s : String) : String :=
  String.join (s.toList.map
    (fun c =>
      if isFormSafe c then String.mk [c]
      else if c = ' ' then "+"
      else "%" ++ hex2 c.toNat))

/-- Serialization of `URLSearchParams`. -/
def serializeQuery (l : List (String × String)) : String :=
  String.intercalate "&" (l.map (fun kv => formUrlEncode kv.1 ++ "=" ++ formUrlEncode kv.2))

/-- Characters left verbatim by `encodeURIComponent`. -/
def isUriComponentSafe (c : Char) : Bool :=
  ('a' ≤ c && c ≤ 'z') || ('A' ≤ c && c ≤ 'Z') || isDigitCh c ||
    c = '-' || c = '_' || c = '.' || c = '!' || c = '~' || c = '*' ||
    c = '\'' || c = '(' || c = ')'

/-- `encodeURIComponent` (bytewise; agrees with UTF-8 on ASCII data). -/
def encodeURIComponent (s : String) : String :=
  String.join (s.toList.map
    (fun c =>
      if isUriComponentSafe c then String.mk [c]
      else "%" ++ hex2 c.toNat))

/-- The parts of a parsed `new URL` object the script uses: protocol,
host, path, parsed query, raw fragment. -/
structure URLObj where
  scheme : String
  host : String
  path : String
  query : List (String × String)
  fragment : String

/-- Parse the host/path/query/fragment parts after the scheme. -/
def parseAfterScheme (scheme : String) (cs : List Char) : Option URLObj :=
  let host := cs.takeWhile (fun c => c ≠ '/' && c ≠ '?' && c ≠ '#')
  if host.isEmpty then none
  else
    let rest := cs.dropWhile (fun c => c ≠ '/' && c ≠ '?' && c ≠ '#')
    let path := rest.takeWhile (fun c => c ≠ '?' && c ≠ '#')
    let rest2 := rest.dropWhile (fun c => c ≠ '?' && c ≠ '#')
    match rest2 with
    | '?' :: r3 =>
        some { scheme, host := String.mk host, path := String.mk path,
               query := parseQueryString (String.mk (r3.takeWhile (fun c => c ≠ '#'))),
               fragment := String.mk (r3.dropWhile (fun c => c ≠ '#')) }
    | r2 =>
        some { scheme, host := String.mk host, path := String.mk path,
               query := [], fragment := String.mk r2 }

/-- `new URL(s)` for the http(s) URLs the pipeline handles; `none` is
the thrown `TypeError` on other inputs (caught by the script where it
matters). -/
def parseJsURL (s : String) : Option URLObj :=
  match stripLit "https://".toList s.toList with
  | some rest => parseAfterScheme "https" rest
  | none =>
    match stripLit "http://".toList s.toList with
    | some rest => parseAfterScheme "http" rest
    | none => none

/-- `urlObj.toString()` after a `searchParams` mutation: the search part
is the serialization of the (mutated) parameter list; an empty path
serializes as `/`. -/
def urlToString (u : URLObj) : String :=
  u.scheme ++ "://" ++ u.host ++ (if u.path = "" then "/" else u.path) ++
    (if u.query.isEmpty then "" else "?" ++ serializeQuery u.query) ++ u.fragment

/-! ### Steps 7-8: the Decoder boundary and `processFormatUrl` -/

/-- The two kinds of tokens the external `ejs` decoder is asked to
decode (`decryptSignature` / `decryptNParam`). -/
inductive DecodeKind where
  | sig : DecodeKind
  | nparam : DecodeKind
deriving DecidableEq

/-- The external decoder: `callEjs` returns the decoded token, or `null`
when the subprocess fails or its output is unusable. -/
def Decoder : Type := DecodeKind → String → Option String

/-- A raw format descriptor from `streamingData` (string-valued numeric
fields such as `contentLength` are carried already converted, as
`parseInt` reads them). -/
structure RawFormat where
  itag : Option Int := none
  mimeType : Option String := none
  quality : Option String := none
  qualityLabel : Option String := none
  width : Option Int := none
  height : Option Int := none
  fps : Option Int := none
  bitrate : Option Int := none
  averageBitrate : Option Int := none
  contentLength : Option Nat := none
  audioQuality : Option String := none
  audioSampleRate : Option String := none
  audioChannels : Option Int := none
  url : Option String := none
  signatureCipher : Option String := none

/-- JS string concatenation `url + suffix` where `url` may be `null`
(then JS stringifies it as `"null"`). -/
def jsAddNull (u : Option String) (suffix : String) : String :=
  (match u with
   | none => "null"
   | some v => v) ++ suffix

/-- The `n`-parameter stage of `processFormatUrl` (the `try` block): once
a base URL is available, look for a truthy `n` query parameter and, when
the decoder is reachable, ask it to decode; on success replace the
parameter and re-serialize, on failure (or an unparsable URL) keep the
URL unchanged.  The second component records the decode requests
issued. -/
def nStage (d : Decoder) (hasPlayerJs : Bool) (url : String)
    (log : List (DecodeKind × String)) : Option String × List (DecodeKind × String) :=
  match parseJsURL url with
  | none => (some url, log)
  | some uo =>
    match getParam uo.query "n" with
    | some nv =>
        if nv ≠ "" ∧ hasPlayerJs then
          match d DecodeKind.nparam nv with
          | some dn =>
              (some (urlToString { uo with query := setParam uo.query "n" dn }),
               log ++ [(DecodeKind.nparam, nv)])
          | none => (some url, log ++ [(DecodeKind.nparam, nv)])
        else (some url, log)
    | none => (some url, log)

/-- Step 8 of the pipeline (`processFormatUrl`): produce a usable URL
for one raw format, or `none` to drop it.  `hasPlayerJs` is the
truthiness of the `playerJsPath` argument; the second component records
the decode requests issued to the external decoder. -/
def processFormatUrl (d : Decoder) (hasPlayerJs : Bool) (format : RawFormat) :
    Option String × List (DecodeKind × String) :=
  if jsTruthyS format.url = false ∧ jsTruthyS format.signatureCipher = true then
    let params := parseQueryString (format.signatureCipher.getD "")
    let urlP := getParam params "url"
    let sP := getParam params "s"
    let sp := match getParam params "sp" with
      | some v => if v = "" then "signature" else v
      | none => "signature"
    match sP with
    | some sv =>
        if sv ≠ "" ∧ hasPlayerJs then
          match d DecodeKind.sig sv with
          | some ds =>
              nStage d hasPlayerJs
                (jsAddNull urlP ("&" ++ sp ++ "=" ++ encodeURIComponent ds))
                [(DecodeKind.sig, sv)]
          | none => (none, [(DecodeKind.sig, sv)])
        else
          match urlP with
          | some u => if u = "" then (none, []) else nStage d hasPlayerJs u []
          | none => (none, [])
    | none =>
        match urlP with
        | some u => if u = "" then (none, []) else nStage d hasPlayerJs u []
        | none => (none, [])
  else
    match format.url with
    | some u => if u = "" then (none, []) else nStage d hasPlayerJs u []
    | none => (none, [])

/-! ### `formatFileSize` -/

/-- `toFixed(2)`: round to the nearest hundredth, ties toward the larger
value, and render with exactly two decimals. -/
def toFixed2 (q : ℚ) : String :=
  let n : ℤ := ⌊q * 100 + 1 / 2⌋
  let ip := n / 100
  let fr := (n % 100).natAbs
  toString ip ++ "." ++ (if fr < 10 then "0" ++ Nat.repr fr else Nat.repr fr)

/-- The unit table of `formatFileSize`. -/
def sizeUnits : List String := ["B", "KB", "MB", "GB"]

/-- The scaling loop of `formatFileSize`
(`while (size >= 1024 && unitIndex < units.length - 1)`), with the size
carried exactly; the loop runs at most three times, so three units of
fuel are exact. -/
def fsizeLoop : Nat → ℚ → Nat → ℚ × Nat
  | 0, size, i => (size, i)
  | fuel + 1, size, i =>
      if 1024 ≤ size ∧ i < 3 then fsizeLoop fuel (size / 1024) (i + 1)
      else (size, i)

/-- `formatFileSize`: `none` is a missing `contentLength`
(`undefined`, falsy like `0`); the numeric value is the `parseInt` of
the field.  Exact for sizes below `2 ^ 53`, where the script's
floating-point divisions are exact. -/
def formatFileSize : Option Nat → String
  | none => "Unknown"
  | some n =>
      if n = 0 then "Unknown"
      else
        let p := fsizeLoop 3 (n : ℚ) 0
        toFixed2 p.1 ++ " " ++ (sizeUnits.getD p.2 "")

/-- Closed-form unit selection the spec describes: the largest of the
four binary-prefix units that keeps the scaled size at least one (the
last unit absorbing everything larger). -/
def sizeUnitIndex (n : Nat) : Nat :=
  if n < 1024 then 0
  else if n < 1024 ^ 2 then 1
  else if n < 1024 ^ 3 then 2
  else 3

/-! ### Step 9: `extractFormats` -/

/-- A playability status object (`{status, reason}`). -/
structure PlayStatus where
  status : Option String := none
  reason : Option String := none

/-- The `streamingData` object. -/
structure StreamingData where
  formats : Option (List RawFormat) := none
  adaptiveFormats : Option (List RawFormat) := none

/-- The player-response document (the parts the pipeline reads). -/
structure PlayerResponse where
  playabilityStatus : Option PlayStatus := none
  streamingData : Option StreamingData := none

/-- A processed catalog entry, mirroring the object pushed by
`extractFormats`. -/
structure ResolvedFormat where
  itag : Option Int
  mimeType : String
  quality : String
  qualityLabel : Option String
  width : Option Int
  height : Option Int
  fps : Option Int
  bitrate : Option Int
  averageBitrate : Option Int
  contentLength : Option Nat
  filesizeStr : String
  audioQuality : Option String
  audioSampleRate : Option String
  audioChannels : Option Int
  url : String

/-- JS `a || b` on strings with `undefined` for absent values. -/
def jsOrS (a b : Option String) : Option String :=
  if jsTruthyS a then a else b

/-- Build the catalog entry for one raw format, or `none` when
`processFormatUrl` drops it (`if (url)`). -/
def catalogEntry (d : Decoder) (hasPlayerJs : Bool) (format : RawFormat) :
    Option ResolvedFormat :=
  match (processFormatUrl d hasPlayerJs format).1 with
  | none => none
  | some u =>
      if u = "" then none
      else
        some { itag := format.itag,
               mimeType := format.mimeType.getD "",
               quality := (jsOrS (jsOrS format.qualityLabel format.quality) (some "")).getD "",
               qualityLabel := format.qualityLabel,
               width := format.width,
               height := format.height,
               fps := format.fps,
               bitrate := format.bitrate,
               averageBitrate := format.averageBitrate,
               contentLength := format.contentLength,
               filesizeStr := formatFileSize format.contentLength,
               audioQuality := format.audioQuality,
               audioSampleRate := format.audioSampleRate,
               audioChannels := format.audioChannels,
               url := u }

/-- The per-format loop of `extractFormats` over the combined format
list. -/
def catalogOfList (d : Decoder) (hasPlayerJs : Bool) (l : List RawFormat) :
    List ResolvedFormat :=
  l.filterMap (catalogEntry d hasPlayerJs)

/-- Step 9 of the pipeline (`extractFormats`): throw when
`streamingData` is absent, otherwise process
`formats ++ adaptiveFormats`. -/
def extractFormats (d : Decoder) (hasPlayerJs : Bool) (resp : PlayerResponse) :
    Except String (List ResolvedFormat) :=
  match resp.streamingData with
  | none => Except.error "无法获取 streamingData"
  | some sd =>
      Except.ok (catalogOfList d hasPlayerJs (sd.formats.getD [] ++ sd.adaptiveFormats.getD []))

/-- Template interpolation of a possibly-`undefined` JS value. -/
def jsUndef : Option String → String
  | none => "undefined"
  | some s => s

/-- The status-check-then-extract step of `main` (source lines 604-613):
a non-`OK` playability status is only logged (with its reason, or `未知`
when the reason is falsy), after which `extractFormats` runs
unconditionally.  Returns the log lines and the extraction result. -/
def mainAfterMetadata (d : Decoder) (hasPlayerJs : Bool) (resp : PlayerResponse) :
    List String × Except String (List ResolvedFormat) :=
  let log := match resp.playabilityStatus with
    | some st =>
        ["视频状态: " ++ jsUndef st.status] ++
          (if st.status ≠ some "OK" then
            ["原因: " ++ (match st.reason with
              | some r => if r = "" then "未知" else r
              | none => "未知")]
          else [])
    | none => []
  (log, extractFormats d hasPlayerJs resp)

/-! ### Transport: `httpRequest` redirect handling -/

/-- The parts of an HTTP response the redirect logic reads (the body is
carried already content-decoded; gzip/deflate decoding does not affect
redirect behavior). -/
structure NetResponse where
  statusCode : Nat
  location : Option String := none
  body : String := ""

/-- A completed `httpRequest`: a resolved response, or the rejection
thrown when `new URL(url)` fails. -/
inductive HttpOutcome where
  | success (statusCode : Nat) (body : String) : HttpOutcome
  | badUrl : HttpOutcome
deriving DecidableEq

/-- Fuel-indexed unfolding of `httpRequest` over an abstract network
`net` mapping each URL to its response.  The source recurses on every
`3xx` response with a truthy `location` header, with no hop counter;
`none` means the request has not completed within `fuel` hops, so a
run that is `none` for every fuel never completes. -/
def httpRequestFuel (net : String → NetResponse) : Nat → String → Option HttpOutcome
  | 0, _ => none
  | fuel + 1, url =>
    match parseJsURL url with
    | none => some HttpOutcome.badUrl
    | some uo =>
      let res := net url
      if 300 ≤ res.statusCode ∧ res.statusCode < 400 ∧ jsTruthyS res.location = true then
        let loc := res.location.getD ""
        httpRequestFuel net fuel
          (if strStartsWith loc "/" then uo.scheme ++ "://" ++ uo.host ++ loc else loc)
      else some (HttpOutcome.success res.statusCode res.body)

/-! ### Step 10: `downloadFile` -/

/-- The download-relevant outcome of one HTTP request: a request-level
error, a redirect, or a response body (of any status code). -/
inductive DlResponse where
  | reqError : DlResponse
  | redirect (loc : String) : DlResponse
  | ok (body : String) : DlResponse

/-- How a `downloadFile` invocation ends. -/
inductive DlResult where
  | success : DlResult
  | failed : DlResult
  | diverged : DlResult
deriving DecidableEq

/-- Fuel-indexed `downloadFile` over an abstract network, embedding the
event handlers the source wires: the destination file is created up
front (`createWriteStream`); a request error unlinks it and rejects; a
redirect closes and unlinks it and re-issues the request to the new
location; a file-write error (`writeFails`) unlinks it and rejects;
`finish` resolves.  The second component is whether the destination
file is still on disk afterwards (`diverged` is the unbounded redirect
recursion running out of fuel). -/
def downloadFile (net : String → DlResponse) (writeFails : Bool) :
    Nat → String → DlResult × Bool
  | 0, _ => (DlResult.diverged, true)
  | fuel + 1, url =>
    match net url with
    | DlResponse.reqError => (DlResult.failed, false)
    | DlResponse.redirect loc => downloadFile net writeFails fuel loc
    | DlResponse.ok _ =>
        if writeFails then (DlResult.failed, false) else (DlResult.success, true)

/-! ## Theorems -/

/-- The scaling loop stops as soon as the size is below 1024. -/
lemma fsizeLoop_stop (fuel : Nat) (q : ℚ) (i : Nat) (hq : q < 1024) :
    fsizeLoop fuel q i = (q, i) := by
  cases fuel with
  | zero => rfl
  | succ f =>
      rw [fsizeLoop, if_neg]
      intro h
      exact absurd h.1 (not_le.mpr hq)

/-- One iteration of the scaling loop. -/
lemma fsizeLoop_step (fuel : Nat) (q : ℚ) (i : Nat) (h1 : 1024 ≤ q) (h2 : i < 3) :
    fsizeLoop (fuel + 1) q i = fsizeLoop fuel (q / 1024) (i + 1) := by
  rw [fsizeLoop, if_pos ⟨h1, h2⟩]

/-- The loop agrees with the closed-form unit selection. -/
lemma fsizeLoop_char (n : Nat) :
    fsizeLoop 3 (n : ℚ) 0 = ((n : ℚ) / 1024 ^ sizeUnitIndex n, sizeUnitIndex n) := by
  have h1024 : (0 : ℚ) < 1024 := by norm_num
  by_cases h1 : n < 1024
  · have hq : (n : ℚ) < 1024 := by exact_mod_cast h1
    rw [fsizeLoop_stop 3 _ 0 hq, sizeUnitIndex, if_pos h1]
    norm_num
  · have hq : (1024 : ℚ) ≤ (n : ℚ) := by exact_mod_cast le_of_not_lt h1
    rw [show (3 : Nat) = 2 + 1 from rfl, fsizeLoop_step 2 _ 0 hq (by norm_num)]
    by_cases h2 : n < 1024 ^ 2
    · have hq2 : (n : ℚ) / 1024 < 1024 := by
        rw [div_lt_iff₀ h1024]
        calc (n : ℚ) < ((1024 ^ 2 : Nat) : ℚ) := by exact_mod_cast h2
          _ = 1024 * 1024 := by norm_num
      rw [fsizeLoop_stop 2 _ 1 hq2, sizeUnitIndex, if_neg h1, if_pos h2]
      norm_num
    · have hq2 : (1024 : ℚ) ≤ (n : ℚ) / 1024 := by
        rw [le_div_iff₀ h1024]
        calc (1024 : ℚ) * 1024 = ((1024 ^ 2 : Nat) : ℚ) := by norm_num
          _ ≤ (n : ℚ) := by exact_mod_cast le_of_not_lt h2
      rw [show (2 : Nat) = 1 + 1 from rfl, fsizeLoop_step 1 _ 1 hq2 (by norm_num)]
      by_cases h3 : n < 1024 ^ 3
      · have hq3 : (n : ℚ) / 1024 / 1024 < 1024 := by
          rw [div_div, div_lt_iff₀ (by norm_num : (0 : ℚ) < 1024 * 1024)]
          calc (n : ℚ) < ((1024 ^ 3 : Nat) : ℚ) := by exact_mod_cast h3
            _ = 1024 * (1024 * 1024) := by norm_num
        rw [fsizeLoop_stop 1 _ 2 hq3, sizeUnitIndex, if_neg h1, if_neg h2, if_pos h3]
        rw [div_div]
        norm_num
      · have hq3 : (1024 : ℚ) ≤ (n : ℚ) / 1024 / 1024 := by
          rw [div_div, le_div_iff₀ (by norm_num : (0 : ℚ) < 1024 * 1024)]
          calc (1024 : ℚ) * (1024 * 1024) = ((1024 ^ 3 : Nat) : ℚ) := by norm_num
            _ ≤ (n : ℚ) := by exact_mod_cast le_of_not_lt h3
        rw [show (1 : Nat) = 0 + 1 from rfl, fsizeLoop_step 0 _ 2 hq3 (by norm_num)]
        rw [fsizeLoop, sizeUnitIndex, if_neg h1, if_neg h2, if_neg h3]
        rw [div_div, div_div]
        norm_num

/-- Evaluation of `formatFileSize` on a positive size through the
closed-form unit selection. -/
lemma formatFileSize_eq (n : Nat) (hn : 0 < n) :
    formatFileSize (some n) =
      toFixed2 ((n : ℚ) / 1024 ^ sizeUnitIndex n) ++ " " ++
        sizeUnits.getD (sizeUnitIndex n) "" := by
  simp only [formatFileSize, if_neg (Nat.pos_iff_ne_zero.mp hn), fsizeLoop_char n]

/-- Evaluation of `toFixed2` once the rounded numerator is known. -/
lemma toFixed2_val (q : ℚ) (m : ℤ) (h : ⌊q * 100 + 1 / 2⌋ = m) :
    toFixed2 q =
      toString (m / 100) ++ "." ++
        (if (m % 100).natAbs < 10 then "0" ++ Nat.repr (m % 100).natAbs
         else Nat.repr (m % 100).natAbs) := by
  simp only [toFixed2, h]

/-- C5: the size formatter maps 0 to `Unknown`, 1024 to `1.00 KB`, 1536
to `1.50 KB`, and 1073741824 to `1.00 GB`; in general it scales by
1024 while the size is at least 1024 and a larger unit (B/KB/MB/GB)
remains, then renders with two-decimal rounding. -/
theorem formatFileSize_claim :
    formatFileSize (some 0) = "Unknown" ∧
    formatFileSize (some 1024) = "1.00 KB" ∧
    formatFileSize (some 1536) = "1.50 KB" ∧
    formatFileSize (some 1073741824) = "1.00 GB" ∧
    ∀ n : Nat, 0 < n →
      formatFileSize (some n) =
        toFixed2 ((n : ℚ) / 1024 ^ sizeUnitIndex n) ++ " " ++
          sizeUnits.getD (sizeUnitIndex n) "" := by
  refine ⟨by rfl, ?_, ?_, ?_, fun n hn => formatFileSize_eq n hn⟩
  · rw [formatFileSize_eq 1024 (by norm_num)]
    rw [show sizeUnitIndex 1024 = 1 from by decide]
    rw [toFixed2_val _ 100
      (by rw [Int.floor_eq_iff]; norm_num)]
    decide
  · rw [formatFileSize_eq 1536 (by norm_num)]
    rw [show sizeUnitIndex 1536 = 1 from by decide]
    rw [toFixed2_val _ 150
      (by rw [Int.floor_eq_iff]; norm_num)]
    decide
  · rw [formatFileSize_eq 1073741824 (by norm_num)]
    rw [show sizeUnitIndex 1073741824 = 3 from by decide]
    rw [toFixed2_val _ 100
      (by rw [Int.floor_eq_iff]; norm_num)]
    decide

/-- Witness for C5 at a concrete 2048-byte input. -/
theorem formatFileSize_claim_witness :
    formatFileSize (some 2048) =
      toFixed2 ((2048 : ℚ) / 1024 ^ sizeUnitIndex 2048) ++ " " ++
        sizeUnits.getD (sizeUnitIndex 2048) "" :=
  formatFileSize_claim.2.2.2.2 2048 (by norm_num)

/-- C8: a raw format with neither a truthy `url` nor a truthy
`signatureCipher` is dropped by cipher resolution, and every entry of
the resolved catalog carries a non-empty `url`. -/
theorem catalog_urlless_dropped :
    (∀ (d : Decoder) (hasPJ : Bool) (fmt : RawFormat),
        jsTruthyS fmt.url = false → jsTruthyS fmt.signatureCipher = false →
        (processFormatUrl d hasPJ fmt).1 = none) ∧
    (∀ (d : Decoder) (hasPJ : Bool) (resp : PlayerResponse)
        (l : List ResolvedFormat),
        extractFormats d hasPJ resp = Except.ok l → ∀ e ∈ l, e.url ≠ "") := by
  constructor
  · intro d hasPJ fmt hu hc
    rw [processFormatUrl, if_neg (by simp [hc])]
    cases hfu : fmt.url with
    | none => rfl
    | some u =>
        have hue : u = "" := by
          by_contra hne
          rw [hfu] at hu
          simp [jsTruthyS, hne] at hu
        rw [hue]
        simp
  · intro d hasPJ resp l hok e he
    cases hsd : resp.streamingData with
    | none => rw [extractFormats, hsd] at hok; exact absurd hok (by simp)
    | some sd =>
        rw [extractFormats, hsd] at hok
        have hl : l = catalogOfList d hasPJ (sd.formats.getD [] ++ sd.adaptiveFormats.getD []) := by
          cases hok; rfl
        rw [hl, catalogOfList, List.mem_filterMap] at he
        obtain ⟨fmt, _, hfe⟩ := he
        rw [catalogEntry] at hfe
        cases hpu : (processFormatUrl d hasPJ fmt).1 with
        | none => simp only [hpu] at hfe; exact Option.noConfusion hfe
        | some u =>
            simp only [hpu] at hfe
            by_cases hun : u = ""
            · rw [if_pos hun] at hfe; exact absurd hfe (by simp)
            · rw [if_neg hun] at hfe
              have : e.url = u := by cases hfe; rfl
              rw [this]; exact hun

/-- A decoder that always fails, used by concrete witnesses. -/
def decoderNone : Decoder := fun _ _ => none

/-- A raw format with no URL source at all. -/
def emptyFormat : RawFormat := {}

/-- A concrete response with one direct-URL format. -/
def directResp : PlayerResponse :=
  { streamingData := some { formats := some [{ url := some "https://h.example/v" }] } }

/-- Witness for C8: draws both conclusions at concrete inputs. -/
theorem catalog_urlless_dropped_witness :
    (processFormatUrl decoderNone true emptyFormat).1 = none ∧
    ∀ e ∈ (catalogOfList decoderNone true
        [{ url := some "https://h.example/v" }]), e.url ≠ "" :=
  ⟨catalog_urlless_dropped.1 decoderNone true emptyFormat rfl rfl,
   catalog_urlless_dropped.2 decoderNone true directResp _ rfl⟩

/-- C9: whenever `downloadFile` ends in a surfaced failure (request
error or file-write error), the partially written destination file has
been removed; a redirect discards the partial file and re-issues the
request to the new location. -/
theorem downloadFile_cleanup :
    (∀ (net : String → DlResponse) (writeFails : Bool) (fuel : Nat) (url : String),
        (downloadFile net writeFails fuel url).1 = DlResult.failed →
        (downloadFile net writeFails fuel url).2 = false) ∧
    (∀ (net : String → DlResponse) (writeFails : Bool) (fuel : Nat) (url loc : String),
        net url = DlResponse.redirect loc →
        downloadFile net writeFails (fuel + 1) url =
          downloadFile net writeFails fuel loc) := by
  constructor
  · intro net wf fuel
    induction fuel with
    | zero => intro url h; exact absurd h (by simp [downloadFile])
    | succ f ih =>
        intro url h
        rw [downloadFile] at h ⊢
        cases hnet : net url with
        | reqError => rfl
        | redirect loc => rw [hnet] at h; exact ih loc h
        | ok body =>
            rw [hnet] at h
            by_cases hw : wf
            · simp [hw]
            · simp [hw] at h
  · intro net wf fuel url loc h
    rw [downloadFile, h]

/-- A network that always fails at the request level. -/
def netErrOnly : String → DlResponse := fun _ => DlResponse.reqError

/-- A network with a single redirect hop. -/
def netOneRedirect : String → DlResponse := fun u =>
  if u = "https://a.example/f" then DlResponse.redirect "https://b.example/f"
  else DlResponse.ok "data"

/-- Witness for C9 at concrete networks. -/
theorem downloadFile_cleanup_witness :
    (downloadFile netErrOnly false 1 "https://a.example/f").2 = false ∧
    downloadFile netOneRedirect false (1 + 1) "https://a.example/f" =
      downloadFile netOneRedirect false 1 "https://b.example/f" :=
  ⟨downloadFile_cleanup.1 netErrOnly false 1 "https://a.example/f" rfl,
   downloadFile_cleanup.2 netOneRedirect false 1 "https://a.example/f"
     "https://b.example/f" rfl⟩

/-- A concrete response whose playability status is `ERROR` with reason
`Video unavailable`, and which still carries one direct-URL format. -/
def demoErrorResp : PlayerResponse :=
  { playabilityStatus := some { status := some "ERROR", reason := some "Video unavailable" },
    streamingData := some { formats := some [{ url := some "https://h.example/v" }] } }

/-- Whether an `Except` run completed without an error. -/
def exceptIsOk {ε α : Type} : Except ε α → Bool
  | Except.ok _ => true
  | Except.error _ => false

/-- C1 counterexample: on a metadata document whose
`playabilityStatus.status` is `ERROR` with reason `Video unavailable`,
the pipeline does not surface any failure — it logs the status and
reason and still proceeds to format extraction, which here succeeds
with one catalog entry. -/
theorem statusNotOk_counterexample :
    (mainAfterMetadata decoderNone true demoErrorResp).1 =
      ["视频状态: ERROR", "原因: Video unavailable"] ∧
    exceptIsOk (mainAfterMetadata decoderNone true demoErrorResp).2 = true ∧
    ((mainAfterMetadata decoderNone true demoErrorResp).2.toOption.map List.length) =
      some 1 := by
  refine ⟨rfl, rfl, rfl⟩

/-- C1 amended: a non-`OK` playability status (with a nonempty reason)
is surfaced only as a log line carrying the reason; it is not fatal, and
the pipeline proceeds to format extraction unconditionally. -/
theorem statusNotOk_only_logged :
    ∀ (d : Decoder) (hasPJ : Bool) (resp : PlayerResponse) (st : PlayStatus) (r : String),
      resp.playabilityStatus = some st → st.status ≠ some "OK" →
      st.reason = some r → r ≠ "" →
      (mainAfterMetadata d hasPJ resp).1 =
        ["视频状态: " ++ jsUndef st.status, "原因: " ++ r] ∧
      (mainAfterMetadata d hasPJ resp).2 = extractFormats d hasPJ resp := by
  intro d hasPJ resp st r hps hst hr hrne
  constructor
  · simp only [mainAfterMetadata, hps, hr, if_pos hst, if_neg hrne]
    rfl
  · rfl

/-- Witness for C1's amended statement at the concrete error response. -/
theorem statusNotOk_only_logged_witness :
    (mainAfterMetadata decoderNone true demoErrorResp).1 =
      ["视频状态: " ++ jsUndef (some "ERROR"), "原因: " ++ "Video unavailable"] ∧
    (mainAfterMetadata decoderNone true demoErrorResp).2 =
      extractFormats decoderNone true demoErrorResp :=
  statusNotOk_only_logged decoderNone true demoErrorResp
    { status := some "ERROR", reason := some "Video unavailable" }
    "Video unavailable" rfl (by simp) rfl (by simp)

/-- A network whose three URLs redirect in a cycle (the second hop uses
a root-relative `Location` header). -/
def loopNet : String → NetResponse := fun u =>
  if u = "https://a.example/x" then { statusCode := 302, location := some "https://b.example/y" }
  else if u = "https://b.example/y" then { statusCode := 302, location := some "/z" }
  else if u = "https://b.example/z" then { statusCode := 302, location := some "https://a.example/x" }
  else { statusCode := 200, body := "ok" }

/-- The transport run on the redirect cycle never completes, for any
amount of fuel: the recursion of `httpRequest` has no hop counter. -/
def redirectLoopDiverges : Prop :=
  ∀ fuel : Nat, httpRequestFuel loopNet fuel "https://a.example/x" = none

/-- One unfolding of the loop from its first URL. -/
lemma loopNet_stepA (fuel : Nat) :
    httpRequestFuel loopNet (fuel + 1) "https://a.example/x" =
      httpRequestFuel loopNet fuel "https://b.example/y" := rfl

/-- One unfolding of the loop from its second URL (the root-relative
hop). -/
lemma loopNet_stepB (fuel : Nat) :
    httpRequestFuel loopNet (fuel + 1) "https://b.example/y" =
      httpRequestFuel loopNet fuel "https://b.example/z" := rfl

/-- One unfolding of the loop from its third URL. -/
lemma loopNet_stepC (fuel : Nat) :
    httpRequestFuel loopNet (fuel + 1) "https://b.example/z" =
      httpRequestFuel loopNet fuel "https://a.example/x" := rfl

/-- The loop never completes from any of its three URLs. -/
lemma loopNet_diverges_all (fuel : Nat) :
    httpRequestFuel loopNet fuel "https://a.example/x" = none ∧
    httpRequestFuel loopNet fuel "https://b.example/y" = none ∧
    httpRequestFuel loopNet fuel "https://b.example/z" = none := by
  induction fuel with
  | zero => exact ⟨rfl, rfl, rfl⟩
  | succ f ih =>
      exact ⟨by rw [loopNet_stepA]; exact ih.2.1,
             by rw [loopNet_stepB]; exact ih.2.2,
             by rw [loopNet_stepC]; exact ih.1⟩

/-- C3 counterexample: the transport follows redirects with no bounded
hop count — on a concrete redirect cycle (with absolute and
root-relative `Location` headers) the request never completes and no
typed redirect-limit failure is ever surfaced, for any number of
hops. -/
theorem redirect_loop_counterexample : redirectLoopDiverges :=
  fun fuel => (loopNet_diverges_all fuel).1

/-- C3 amended: the transport follows HTTP redirects (absolute and
root-relative `Location` headers) by re-issuing the request to the
resolved location, with no hop bound: each `3xx` response with a truthy
`Location` recurses, so a redirect cycle loops forever instead of
surfacing a typed failure. -/
theorem httpRequest_redirect_unbounded :
    ∀ (net : String → NetResponse) (fuel : Nat) (url : String) (uo : URLObj) (l : String),
      parseJsURL url = some uo →
      300 ≤ (net url).statusCode → (net url).statusCode < 400 →
      (net url).location = some l → l ≠ "" →
      httpRequestFuel net (fuel + 1) url =
        httpRequestFuel net fuel
          (if strStartsWith l "/" then uo.scheme ++ "://" ++ uo.host ++ l else l) := by
  intro net fuel url uo l hp h3 h4 hl hlne
  rw [httpRequestFuel]
  simp only [hp, hl]
  rw [if_pos ⟨h3, h4, by simp [jsTruthyS, hlne]⟩]
  simp [Option.getD]

/-- A network with a single root-relative redirect hop. -/
def oneHopNet : String → NetResponse := fun u =>
  if u = "https://a.example/p" then { statusCode := 301, location := some "/q" }
  else { statusCode := 200, body := "done" }

/-- Witness for C3's amended statement at a concrete one-hop network. -/
theorem httpRequest_redirect_unbounded_witness :
    httpRequestFuel oneHopNet (5 + 1) "https://a.example/p" =
      httpRequestFuel oneHopNet 5
        (if strStartsWith "/q" "/" then "https" ++ "://" ++ "a.example" ++ "/q"
         else "/q") :=
  httpRequest_redirect_unbounded oneHopNet 5 "https://a.example/p"
    { scheme := "https", host := "a.example", path := "/p", query := [], fragment := "" }
    "/q" rfl (by decide) (by decide) rfl (by decide)

/-- C4: player-script URL resolution tries its three sources in order —
the explicit configuration field, then the first matching page pattern
(with escape normalization and root-relative expansion), then the URL
constructed from the bare player-identifier pattern — returning the
first success, and raises the fatal player-script-not-found error when
all three fail. -/
theorem extractPlayerUrl_priority :
    ∀ (html : String) (cfg : List (String × JValue)),
      (∀ u, urlFromCfg cfg = some u → extractPlayerUrl html cfg = Except.ok u) ∧
      (urlFromCfg cfg = none → ∀ u, urlFromPagePatterns html = some u →
        extractPlayerUrl html cfg = Except.ok u) ∧
      (urlFromCfg cfg = none → urlFromPagePatterns html = none → ∀ u,
        urlFromPlayerId html = some u → extractPlayerUrl html cfg = Except.ok u) ∧
      (urlFromCfg cfg = none → urlFromPagePatterns html = none →
        urlFromPlayerId html = none →
        extractPlayerUrl html cfg = Except.error "无法提取 Player URL") := by
  intro html cfg
  refine ⟨?_, ?_, ?_, ?_⟩
  · intro u h1; rw [extractPlayerUrl, h1]
  · intro h1 u h2; rw [extractPlayerUrl, h1]; simp only [h2]
  · intro h1 h2 u h3; rw [extractPlayerUrl, h1]; simp only [h2, h3]
  · intro h1 h2 h3; rw [extractPlayerUrl, h1]; simp only [h2, h3]

/-- A configuration carrying an explicit player-script path. -/
def cfgWithPlayerJs : List (String × JValue) := [("PLAYER_JS_URL", JValue.str "/p.js")]

/-- Witness for C4: the configuration field wins on a concrete
configuration, and empty inputs produce the fatal error. -/
theorem extractPlayerUrl_priority_witness :
    extractPlayerUrl "" cfgWithPlayerJs = Except.ok "https://www.youtube.com/p.js" ∧
    extractPlayerUrl "" [] = Except.error "无法提取 Player URL" :=
  ⟨(extractPlayerUrl_priority "" cfgWithPlayerJs).1 "https://www.youtube.com/p.js" rfl,
   (extractPlayerUrl_priority "" []).2.2.2 rfl rfl rfl⟩

/-- A format whose signature cipher carries a signature token and an
embedded URL. -/
def cipherSigFormat : RawFormat :=
  { signatureCipher := some "s=abc&url=https%3A%2F%2Fh.example%2Fv" }

/-- A format with a direct URL carrying a truthy `n` parameter. -/
def directNFormat : RawFormat := { url := some "https://h.example/v?n=zz" }

/-- C2: when a format's `signatureCipher` carries a signature token and
the Decoder fails on it, that format is dropped, and dropping one
format leaves the catalog of all the other formats untouched; when the
Decoder fails on the `n` parameter of a format whose URL is available,
the format is retained with its URL (hence its `n` value) unchanged. -/
theorem cipher_failure_policy :
    (∀ (d : Decoder) (fmt : RawFormat) (c sv : String),
        jsTruthyS fmt.url = false → fmt.signatureCipher = some c → c ≠ "" →
        getParam (parseQueryString c) "s" = some sv → sv ≠ "" →
        d DecodeKind.sig sv = none →
        (processFormatUrl d true fmt).1 = none) ∧
    (∀ (d : Decoder) (hasPJ : Bool) (l1 l2 : List RawFormat) (fmt : RawFormat),
        (processFormatUrl d hasPJ fmt).1 = none →
        catalogOfList d hasPJ (l1 ++ fmt :: l2) =
          catalogOfList d hasPJ l1 ++ catalogOfList d hasPJ l2) ∧
    (∀ (d : Decoder) (fmt : RawFormat) (u : String) (uo : URLObj) (nv : String),
        fmt.url = some u → u ≠ "" → parseJsURL u = some uo →
        getParam uo.query "n" = some nv → nv ≠ "" →
        d DecodeKind.nparam nv = none →
        (processFormatUrl d true fmt).1 = some u) := by
  refine ⟨?_, ?_, ?_⟩
  · intro d fmt c sv hu hc hcne hs hsvne hd
    rw [processFormatUrl, if_pos ⟨hu, by simp [hc, jsTruthyS, hcne]⟩]
    simp only [hc, Option.getD_some, hs, hd]
    rw [if_pos ⟨hsvne, trivial⟩]
  · intro d hasPJ l1 l2 fmt h
    simp only [catalogOfList, List.filterMap_append, List.filterMap_cons,
      catalogEntry, h]
  · intro d fmt u uo nv hu hune hp hn hnvne hd
    rw [processFormatUrl, if_neg (by simp [hu, jsTruthyS, hune])]
    simp only [hu]
    rw [if_neg hune, nStage]
    simp only [hp, hn, hd]
    rw [if_pos ⟨hnvne, trivial⟩]

/-- Witness for C2, drawing all three conclusions at concrete inputs:
the cipher format is dropped, the combined catalog only loses that
format, and the direct-URL format with a failing `n` decode keeps its
URL. -/
theorem cipher_failure_policy_witness :
    (processFormatUrl decoderNone true cipherSigFormat).1 = none ∧
    catalogOfList decoderNone true
        ([{ url := some "https://h.example/v" }] ++ cipherSigFormat :: []) =
      catalogOfList decoderNone true [{ url := some "https://h.example/v" }] ++
        catalogOfList decoderNone true [] ∧
    (processFormatUrl decoderNone true directNFormat).1 =
      some "https://h.example/v?n=zz" :=
  ⟨cipher_failure_policy.1 decoderNone cipherSigFormat
      "s=abc&url=https%3A%2F%2Fh.example%2Fv" "abc" rfl rfl (by decide) rfl
      (by decide) rfl,
   cipher_failure_policy.2.1 decoderNone true
      [{ url := some "https://h.example/v" }] [] cipherSigFormat rfl,
   cipher_failure_policy.2.2 decoderNone directNFormat "https://h.example/v?n=zz"
      { scheme := "https", host := "h.example", path := "/v",
        query := [("n", "zz")], fragment := "" }
      "zz" rfl (by decide) rfl rfl (by decide) rfl⟩

/-- A decoder whose `n`-parameter decoding maps `aaa` to `bbb` and
`bbb` to `ccc`. -/
def decoderChain : Decoder := fun k v =>
  if k = DecodeKind.nparam then
    if v = "aaa" then some "bbb" else if v = "bbb" then some "ccc" else none
  else none

/-- C7 counterexample: cipher resolution is not idempotent on a
resolved URL that carries an `n` parameter — the first pass resolves
`n=aaa` to `n=bbb`, and feeding that resolved URL back through the step
as a cipher-free format re-decodes `n` and returns a different URL. -/
theorem cipher_idempotence_counterexample :
    (processFormatUrl decoderChain true { url := some "https://h.example/v?n=aaa" }).1 =
      some "https://h.example/v?n=bbb" ∧
    (processFormatUrl decoderChain true { url := some "https://h.example/v?n=bbb" }).1 =
      some "https://h.example/v?n=ccc" ∧
    ("https://h.example/v?n=ccc" : String) ≠ "https://h.example/v?n=bbb" :=
  ⟨rfl, rfl, by decide⟩

/-- Whether a URL string carries a truthy `n` query parameter once
parsed as the script's `new URL` does. -/
def nParamTruthyOf (u : String) : Bool :=
  match parseJsURL u with
  | none => false
  | some uo => jsTruthyS (getParam uo.query "n")

/-- C7 amended: cipher resolution is idempotent on an already-resolved
URL passed back as a cipher-free format, provided the URL carries no
truthy `n` query parameter: the URL is returned unchanged and the
Decoder is never invoked.  (With a truthy `n` parameter the Decoder is
re-invoked and may change the URL again.) -/
theorem cipher_idempotent_no_nparam :
    ∀ (d : Decoder) (hasPJ : Bool) (u : String), u ≠ "" →
      nParamTruthyOf u = false →
      processFormatUrl d hasPJ { url := some u } = (some u, []) := by
  intro d hasPJ u hune hn
  rw [processFormatUrl, if_neg (by simp [jsTruthyS, hune])]
  dsimp only
  rw [if_neg hune, nStage]
  rw [nParamTruthyOf] at hn
  cases hp : parseJsURL u with
  | none => rfl
  | some uo =>
      rw [hp] at hn
      dsimp only at hn
      dsimp only
      cases hg : getParam uo.query "n" with
      | none => rfl
      | some nv =>
          rw [hg] at hn
          simp only [jsTruthyS, decide_eq_false_iff_not, not_not] at hn
          dsimp only
          rw [if_neg (by simp [hn])]

/-- Witness for C7's amended statement on a URL with no query. -/
theorem cipher_idempotent_no_nparam_witness :
    processFormatUrl decoderNone true { url := some "https://h.example/v" } =
      (some "https://h.example/v", []) :=
  cipher_idempotent_no_nparam decoderNone true "https://h.example/v" (by decide) rfl

/-- A decoder that always succeeds, echoing its token. -/
def decoderEcho : Decoder := fun _ v => some v

/-- C10 counterexample: a format whose `signatureCipher` lacks an `s`
token is not always retained — when the bundle also lacks a `url`
entry the format is dropped (here even though the decoder never
fails). -/
theorem cipher_no_sig_counterexample :
    (processFormatUrl decoderEcho true { signatureCipher := some "sp=sig" }).1 =
      none := rfl

/-- C10 amended: when the cipher bundle lacks an `s` token, no
signature decode is attempted and no signature parameter is appended —
the format is retained with the embedded URL as-is whenever the bundle
carries a nonempty `url` whose value has no truthy `n` parameter (the
empty decode log shows the Decoder is never invoked); but when the
bundle lacks a `url` entry the format is dropped. -/
theorem cipher_no_sig_behavior :
    (∀ (d : Decoder) (hasPJ : Bool) (fmt : RawFormat) (c uv : String),
        jsTruthyS fmt.url = false → fmt.signatureCipher = some c → c ≠ "" →
        getParam (parseQueryString c) "s" = none →
        getParam (parseQueryString c) "url" = some uv → uv ≠ "" →
        nParamTruthyOf uv = false →
        processFormatUrl d hasPJ fmt = (some uv, [])) ∧
    (∀ (d : Decoder) (hasPJ : Bool) (fmt : RawFormat) (c : String),
        jsTruthyS fmt.url = false → fmt.signatureCipher = some c → c ≠ "" →
        getParam (parseQueryString c) "s" = none →
        getParam (parseQueryString c) "url" = none →
        (processFormatUrl d hasPJ fmt).1 = none) := by
  constructor
  · intro d hasPJ fmt c uv hu hc hcne hs hurl huvne hnv
    rw [processFormatUrl, if_pos ⟨hu, by simp [hc, jsTruthyS, hcne]⟩]
    simp only [hc, Option.getD_some, hs, hurl]
    rw [if_neg huvne, nStage]
    rw [nParamTruthyOf] at hnv
    cases hp : parseJsURL uv with
    | none => rfl
    | some uo =>
        rw [hp] at hnv
        dsimp only at hnv
        dsimp only
        cases hg : getParam uo.query "n" with
        | none => rfl
        | some nv =>
            rw [hg] at hnv
            simp only [jsTruthyS, decide_eq_false_iff_not, not_not] at hnv
            dsimp only
            rw [if_neg (by simp [hnv])]
  · intro d hasPJ fmt c hu hc hcne hs hurl
    rw [processFormatUrl, if_pos ⟨hu, by simp [hc, jsTruthyS, hcne]⟩]
    simp only [hc, Option.getD_some, hs, hurl]

/-- Witness for C10's amended statement: a bundle with only a `url`
entry is passed through untouched with an empty decode log, and a
bundle with neither `s` nor `url` is dropped. -/
theorem cipher_no_sig_behavior_witness :
    processFormatUrl decoderEcho true
        { signatureCipher := some "url=https%3A%2F%2Fh.example%2Fv" } =
      (some "https://h.example/v", []) ∧
    (processFormatUrl decoderEcho true { signatureCipher := some "sp=sig2" }).1 =
      none :=
  ⟨cipher_no_sig_behavior.1 decoderEcho true
      { signatureCipher := some "url=https%3A%2F%2Fh.example%2Fv" }
      "url=https%3A%2F%2Fh.example%2Fv" "https://h.example/v" rfl rfl (by decide)
      rfl rfl (by decide) rfl,
   cipher_no_sig_behavior.2 decoderEcho true { signatureCipher := some "sp=sig2" }
      "sp=sig2" rfl rfl (by decide) rfl rfl⟩

/-- `objSet` at one key does not disturb lookups at another key. -/
lemma objLookup_objSet_ne (l : List (String × JValue)) (k k' : String) (v : JValue)
    (h : k' ≠ k) : objLookup (objSet l k v) k' = objLookup l k' := by
  induction l with
  | nil => simp [objSet, objLookup, Ne.symm h]
  | cons kv rest ih =>
      obtain ⟨a, b⟩ := kv
      by_cases hak : a = k
      · subst hak
        simp [objSet, objLookup, Ne.symm h]
      · simp [objSet, objLookup, hak, ih]

/-- One fallback step preserves any truthy binding. -/
lemma fallbackStep_preserves (html : String) (cfg : List (String × JValue))
    (key k : String) (v : JValue) (h : objLookup cfg k = some v)
    (hv : jsTruthy v = true) :
    objLookup (fallbackStep html cfg key) k = some v := by
  rw [fallbackStep]
  by_cases hkey : key = k
  · subst hkey
    rw [h]
    simp only [Option.getD_some, hv, if_true]
    exact h
  · by_cases ht : jsTruthy ((objLookup cfg key).getD JValue.null) = true
    · rw [if_pos ht]; exact h
    · rw [if_neg ht]
      cases matchKeyQuoted html key with
      | none => exact h
      | some m => rw [objLookup_objSet_ne cfg key k _ (Ne.symm hkey)]; exact h

/-- The whole fallback loop preserves any truthy binding. -/
lemma applyFallbacks_preserves (html : String) (keys : List String)
    (cfg : List (String × JValue)) (k : String) (v : JValue)
    (h : objLookup cfg k = some v) (hv : jsTruthy v = true) :
    objLookup (keys.foldl (fallbackStep html) cfg) k = some v := by
  induction keys generalizing cfg with
  | nil => exact h
  | cons key rest ih =>
      exact ih (fallbackStep html cfg key) (fallbackStep_preserves html cfg key k v h hv)

/-- A page with two configuration-setting occurrences: the first parses
strictly, the second only parses after the quote-normalization
recovery, and it overwrites the first one's key. -/
def htmlOverwrite : String :=
  "ytcfg.set(\x7b\"A\": \"x\"\x7d); ytcfg.set(\x7b'A': 'y'\x7d);"

/-- C6 counterexample: the harvested configuration is not a superset of
what strict parsing alone yields — on `htmlOverwrite` strict parsing
alone binds `A` to `"x"`, but the recovered parse of the second
occurrence overwrites it, and the harvested configuration binds `A` to
`"y"`. -/
theorem ytcfg_superset_counterexample :
    objLookup (ytcfgStrictOnly htmlOverwrite) "A" = some (JValue.str "x") ∧
    objLookup (extractYtcfg htmlOverwrite) "A" = some (JValue.str "y") ∧
    JValue.str "y" ≠ JValue.str "x" :=
  ⟨rfl, rfl, by simp⟩

/-- C6 amended: the harvested configuration is a superset of the truthy
bindings produced by phase (a) — strict parsing plus the
quote-normalization recovery, merged last-write-wins across
occurrences: the per-key fallback patterns never remove or replace a
key whose phase-(a) value is truthy.  (A later occurrence's recovered
parse can overwrite an earlier strict binding, and a fallback pattern
can replace a falsy strict value, so the superset property does not
hold of strict parsing alone.) -/
theorem extractYtcfg_superset_truthy :
    ∀ (html : String) (k : String) (v : JValue),
      objLookup (ytcfgPhaseA html) k = some v → jsTruthy v = true →
      objLookup (extractYtcfg html) k = some v := by
  intro html k v h hv
  rw [extractYtcfg, applyFallbacks]
  exact applyFallbacks_preserves html fallbackKeys (ytcfgPhaseA html) k v h hv

/-- A page with a single strictly-parsing configuration occurrence. -/
def htmlStrict : String := "ytcfg.set(\x7b\"B\": \"z\"\x7d);"

/-- Witness for C6's amended statement on a concrete page. -/
theorem extractYtcfg_superset_truthy_witness :
    objLookup (extractYtcfg htmlStrict) "B" = some (JValue.str "z") :=
  extractYtcfg_superset_truthy htmlStrict "B" (JValue.str "z") rfl rfl

end Ytdlp
